import Mathlib

/-!
Shallow embedding of the CSV-import / row-submission application
(React + TypeScript, `App.tsx` in two variants) and proofs about it.

A parsed CSV row is a JavaScript object mapping column names to string
values; we embed it as an insertion-ordered association list.  A key that
is absent from the list corresponds to `record[key] === undefined` in the
source.  JavaScript objects never hold two entries with the same key, so
the embedding maintains (and some lemmas assume) first-match lookup, which
coincides with JavaScript lookup on duplicate-free lists.
-/

namespace CsvApp

/-- A parsed CSV row: insertion-ordered association list from column name
to cell value (JS object with string values). -/
abbrev Record := List (String × String)

/-- JS `record[k]`: `some v` when key `k` is present with value `v`,
`none` when the property is absent (`undefined`). -/
def lookupField (r : Record) (k : String) : Option String :=
  (r.find? (fun p => p.1 == k)).map (fun p => p.2)

/-- JS `k in record`. -/
def hasKey (r : Record) (k : String) : Bool :=
  r.any (fun p => p.1 == k)

/-- JS spread-with-override `{...record, [k]: v}`: if `k` is present its
value is replaced in place, otherwise the pair is appended at the end. -/
def setKey (r : Record) (k v : String) : Record :=
  if hasKey r k then r.map (fun p => if p.1 == k then (k, v) else p)
  else r ++ [(k, v)]

/-- The `status` field of a record (JS `record.status`). -/
def statusOf (r : Record) : Option String :=
  lookupField r "status"

/-- Whether a record carries a `status` field at all. -/
def hasStatus (r : Record) : Bool :=
  (statusOf r).isSome

/-! ### Local row validation (`handleSendData`, complete variant, lines 153-159)

The source tests, with JS optional chaining:
```
record["Triplet Id"]?.trim() !== "" &&
record["Asset Id"]?.trim() !== "" &&
record["Asset Type "]?.trim() !== "" &&          // note the trailing space
(record["Asset Type"]?.trim() === "SYSTEM" || ... )
```
`undefined?.trim()` is `undefined`, so an absent field passes the
non-emptiness tests (`undefined !== ""`) and fails the equality tests. -/

/-- JS `String.prototype.trim`: strip whitespace from both ends of the
string (structural recursion over the character list, so that it also
evaluates inside the kernel). -/
def jsTrim (s : String) : String :=
  ⟨((s.data.dropWhile Char.isWhitespace).reverse.dropWhile Char.isWhitespace).reverse⟩

/-- One conjunct `record[k]?.trim() !== ""` of the local validation.  An
absent key yields `undefined !== ""`, i.e. `true`. -/
def fieldFilled (r : Record) (k : String) : Bool :=
  match lookupField r k with
  | none => true
  | some v => jsTrim v != ""

/-- The disjunction `record["Asset Type"]?.trim() === "SYSTEM" || ...`;
an absent key makes every equality false. -/
def assetTypeAllowed (r : Record) : Bool :=
  match lookupField r "Asset Type" with
  | none => false
  | some v =>
      jsTrim v == "SYSTEM" || jsTrim v == "SUPPLIER_SERVICE" ||
        jsTrim v == "INDUSTRY_UTILITY"

/-- The full guard of `handleSendData`'s `if`.  The third conjunct reads
the key `"Asset Type "` with a trailing space, exactly as the source does. -/
def isValidRecord (r : Record) : Bool :=
  fieldFilled r "Triplet Id" && fieldFilled r "Asset Id" &&
    fieldFilled r "Asset Type " && assetTypeAllowed r

/-! ### Dataset updates -/

/-- Source `updateStatus` (lines 142-146): functional React state update
`prevData.map((item, i) => (i === index ? { ...item, status } : item))`. -/
def updateStatus (data : List Record) (index : Nat) (status : String) :
    List Record :=
  data.mapIdx fun i item => if i == index then setKey item "status" status else item

/-- Source `handleInputChange` (lines 169-180), restricted to its state effect:
`prevData.map((item, i) => (i === rowIndex ? { ...item, [key]: value } : item))`. -/
def handleInputChange (data : List Record) (rowIndex : Nat) (key value : String) :
    List Record :=
  data.mapIdx fun i item => if i == rowIndex then setKey item key value else item

/-! ### Import (`handleParse`, complete variant, lines 91-119) -/

/-- The error/data part of the component state touched by `handleParse`. -/
structure ParseState where
  error : String
  data : List Record
deriving DecidableEq, Repr

/-- The missing-required-headers message of the source. -/
def missingHeadersMsg : String :=
  "Please input a valid csv file with Triplet Id, Asset Id, Asset Type in the file"

/-- The `reader.onload` body of `handleParse` after Papa has produced
`parsedData`.  On `parsedData.length === 0` the source just `return`s,
leaving the state untouched; on missing required headers it sets the error
message and clears the data; otherwise it appends a `status: "Not Started"`
field to every record. -/
def handleParse (parsedData : List Record) (st : ParseState) : ParseState :=
  match parsedData with
  | [] => st
  | first :: _ =>
      if !hasKey first "Triplet Id" || !hasKey first "Asset Id" ||
          !hasKey first "Asset Type" then
        { error := missingHeadersMsg, data := [] }
      else
        { st with
          data := parsedData.map (fun record => setKey record "status" "Not Started") }

/-- The header check of `handleParse`, as a positive condition. -/
def headersOK (r : Record) : Bool :=
  hasKey r "Triplet Id" && hasKey r "Asset Id" && hasKey r "Asset Type"

/-! ### Basic lemmas about the record operations -/

theorem length_updateStatus (data : List Record) (i : Nat) (s : String) :
    (updateStatus data i s).length = data.length := by
  simp [updateStatus]

theorem get?_mapIdx {α β : Type} (l : List α) (f : Nat → α → β) (i : Nat) :
    (l.mapIdx f).get? i = (l.get? i).map (f i) := by
  by_cases h : i < l.length
  · have h' : i < (l.mapIdx f).length := by
      simpa [List.length_mapIdx] using h
    rw [List.get?_eq_get h, List.get?_eq_get h', List.get_mapIdx l f i h h']
    rfl
  · have h1 : l.get? i = none := List.get?_eq_none.2 (Nat.le_of_not_lt h)
    have h2 : (l.mapIdx f).get? i = none := by
      apply List.get?_eq_none.2
      simpa [List.length_mapIdx] using Nat.le_of_not_lt h
    rw [h1, h2]
    rfl

theorem get?_updateStatus_ne (data : List Record) (i j : Nat) (s : String)
    (h : i ≠ j) : (updateStatus data j s).get? i = data.get? i := by
  rw [updateStatus, get?_mapIdx]
  have : (i == j) = false := by simpa using h
  rw [this]
  simp

theorem get?_updateStatus_self (data : List Record) (i : Nat) (s : String) :
    (updateStatus data i s).get? i = (data.get? i).map (fun r => setKey r "status" s) := by
  rw [updateStatus, get?_mapIdx]
  simp

theorem getElem?_updateStatus_ne (data : List Record) (i j : Nat) (s : String)
    (h : i ≠ j) : (updateStatus data j s)[i]? = data[i]? := by
  simpa [List.get?_eq_getElem?] using get?_updateStatus_ne data i j s h

theorem getElem?_updateStatus_self (data : List Record) (i : Nat) (s : String) :
    (updateStatus data i s)[i]? = (data[i]?).map (fun r => setKey r "status" s) := by
  simpa [List.get?_eq_getElem?] using get?_updateStatus_self data i s

theorem hasKey_setKey_self (r : Record) (k v : String) :
    hasKey (setKey r k v) k = true := by
  unfold setKey
  by_cases h : hasKey r k
  · rw [if_pos h]
    unfold hasKey at h ⊢
    rw [List.any_eq_true] at h ⊢
    obtain ⟨p, hp, hk⟩ := h
    refine ⟨if p.1 == k then (k, v) else p, List.mem_map.2 ⟨p, hp, rfl⟩, ?_⟩
    rw [hk]
    simp
  · rw [if_neg h]
    unfold hasKey
    rw [List.any_eq_true]
    exact ⟨(k, v), List.mem_append.2 (Or.inr (List.mem_singleton.2 rfl)), by simp⟩

theorem lookupField_setKey_self (r : Record) (k v : String) :
    lookupField (setKey r k v) k = some v := by
  unfold setKey
  by_cases h : hasKey r k
  · rw [if_pos h]
    unfold lookupField
    induction r with
    | nil => simp [hasKey] at h
    | cons p rest ih =>
        by_cases hp : p.1 == k
        · simp [List.find?, hp]
        · have hrest : hasKey rest k := by
            unfold hasKey at h
            rw [List.any_eq_true] at h
            obtain ⟨q, hq, hk⟩ := h
            rcases List.mem_cons.1 hq with hq1 | hq2
            · exact absurd (hq1 ▸ hk) (by simpa using hp)
            · unfold hasKey
              rw [List.any_eq_true]
              exact ⟨q, hq2, hk⟩
          have := ih hrest
          simpa [List.find?, hp] using this
  · rw [if_neg h]
    unfold lookupField
    rw [List.find?_append]
    have hnone : r.find? (fun p => p.1 == k) = none := by
      rw [List.find?_eq_none]
      intro p hp
      intro hk
      exact h (by unfold hasKey; rw [List.any_eq_true]; exact ⟨p, hp, hk⟩)
    rw [hnone]
    simp [List.find?]

theorem statusOf_setKey_status (r : Record) (s : String) :
    statusOf (setKey r "status" s) = some s :=
  lookupField_setKey_self r "status" s

theorem lookupField_map_replace (r : Record) (k k' v : String) (h : k' ≠ k) :
    lookupField (r.map (fun p => if p.1 == k then (k, v) else p)) k' =
      lookupField r k' := by
  induction r with
  | nil => rfl
  | cons p rest ih =>
      unfold lookupField at ih ⊢
      by_cases hp : p.1 = k
      · have hne : (k == k') = false := by
          simpa using Ne.symm h
        simp only [List.map_cons, List.find?, hp, beq_self_eq_true, if_pos, hne]
        exact ih
      · have hhead : (if (p.1 == k) = true then (k, v) else p) = p := by
          rw [if_neg (by simpa using hp)]
        simp only [List.map_cons, hhead]
        by_cases hp' : p.1 = k'
        · have ht : (p.1 == k') = true := by simpa using hp'
          rw [List.find?_cons, List.find?_cons, ht]
        · have hf : (p.1 == k') = false := by simpa using hp'
          rw [List.find?_cons, List.find?_cons, hf]
          exact ih

theorem lookupField_setKey_ne (r : Record) (k k' v : String) (h : k' ≠ k) :
    lookupField (setKey r k v) k' = lookupField r k' := by
  unfold setKey
  by_cases hk : hasKey r k
  · rw [if_pos hk]
    exact lookupField_map_replace r k k' v h
  · rw [if_neg hk]
    unfold lookupField
    rw [List.find?_append]
    cases hf : r.find? (fun p => p.1 == k') with
    | some p => rfl
    | none =>
        have hne : ((k, v).1 == k') = false := by simpa using Ne.symm h
        rw [List.find?_cons, hne, List.find?_nil]
        rfl

theorem hasStatus_setKey (r : Record) (k v : String) (h : hasStatus r = true) :
    hasStatus (setKey r k v) = true := by
  by_cases hk : k = "status"
  · subst hk
    unfold hasStatus
    rw [statusOf, lookupField_setKey_self]
    rfl
  · unfold hasStatus statusOf
    rw [lookupField_setKey_ne r k "status" v (fun hh => hk hh.symm)]
    exact h

theorem map_replace_of_not_hasKey (r : Record) (k w : String)
    (h : hasKey r k = false) :
    r.map (fun p => if p.1 == k then (k, w) else p) = r := by
  induction r with
  | nil => rfl
  | cons p rest ih =>
      unfold hasKey at h
      rw [List.any_cons, Bool.or_eq_false_iff] at h
      rw [List.map_cons, if_neg (by rw [h.1]; exact Bool.false_ne_true), ih h.2]

theorem setKey_setKey (r : Record) (k v w : String) :
    setKey (setKey r k v) k w = setKey r k w := by
  have h1 : hasKey (setKey r k v) k = true := hasKey_setKey_self r k v
  by_cases hk : hasKey r k
  · unfold setKey
    rw [if_pos hk, if_pos (by rw [setKey, if_pos hk] at h1; exact h1), if_pos hk,
      List.map_map]
    apply List.map_congr_left
    intro p _
    by_cases hp : p.1 = k
    · simp [hp]
    · simp [hp]
  · unfold setKey
    rw [if_neg hk, if_neg hk, if_pos (by rw [setKey, if_neg hk] at h1; exact h1)]
    rw [List.map_append, map_replace_of_not_hasKey r k w (by simpa using hk)]
    simp

/-! ### The submission run (`handleSendData` + `sendData`, complete variant) -/

/-- One network-level happening during a run: `start i body` is the moment
`axios.post(url, body)` is issued for row `i`; `settle i ok` is the moment
its promise settles (`ok` true on a success response, false on rejection). -/
inductive Event where
  | start (i : Nat) (body : Record)
  | settle (i : Nat) (ok : Bool)
deriving DecidableEq, Repr

/-- The component state threaded through a run of `handleSendData`,
together with the log of network events and of `updateStatus` calls. -/
structure RunState where
  data : List Record
  events : List Event
  updates : List (Nat × String)
  showResultButton : String
  addAssetButtonName : String
  disableAssetButton : Bool
deriving DecidableEq, Repr

/-- A call `updateStatus(index, status)` applied to the run state. -/
def applyUpdate (s : RunState) (index : Nat) (status : String) : RunState :=
  { s with
    data := updateStatus s.data index status,
    updates := s.updates ++ [(index, status)] }

/-- Source `sendData` (lines 124-140, complete variant): post the record, settle,
update the status from the outcome, and — only when `index` is the last
index of the closed-over `data` — reveal the download button and restore
the submit button.  `resp index` is the environment's answer to the POST
for row `index` (true: 2xx success, false: network error / rejection). -/
def sendData (resp : Nat → Bool) (orig : List Record) (record : Record)
    (index : Nat) (s : RunState) : RunState :=
  let ok := resp index
  let s1 := { s with events := s.events ++ [Event.start index record, Event.settle index ok] }
  let s2 := applyUpdate s1 index (if ok then "Success" else "Failed")
  if index == orig.length - 1 then
    { s2 with
      showResultButton := "inline",
      addAssetButtonName := "Add Assets",
      disableAssetButton := false }
  else s2

/-- One iteration of the `for` loop of `handleSendData` (lines 151-166):
read `data[index]` from the closed-over array, run the local validation,
and either mark `In Progress` and await `sendData`, or mark
`Data Incorrect` without any network activity. -/
def stepRow (resp : Nat → Bool) (orig : List Record) (s : RunState)
    (index : Nat) : RunState :=
  match orig[index]? with
  | none => s
  | some record =>
      if isValidRecord record then
        sendData resp orig record index (applyUpdate s index "In Progress")
      else
        applyUpdate s index "Data Incorrect"

/-- The `for` loop, iterating over a list of indices. -/
def sendLoop (resp : Nat → Bool) (orig : List Record) :
    List Nat → RunState → RunState
  | [], s => s
  | i :: rest, s => sendLoop resp orig rest (stepRow resp orig s i)

/-- Source `handleSendData` (complete variant): set the busy label and disable the
button, then run the loop over indices `0 .. data.length - 1`.  `show0` is
the value of `showResultButton` when the run starts (`"none"` right after
an import, since the file-change effect hides the button). -/
def handleSendData (resp : Nat → Bool) (data : List Record) (show0 : String) :
    RunState :=
  sendLoop resp data (List.range data.length)
    { data := data, events := [], updates := [],
      showResultButton := show0,
      addAssetButtonName := "Adding...",
      disableAssetButton := true }

/-! ### The earlier variant (`handleSendData` in `part_000` / `App.tsx`)

`handleSendData = () => { data.forEach((record, index) => sendData(record, index)); }`
dispatches every `sendData` without awaiting: each `axios.post` is issued
synchronously during the `forEach`, and the responses settle later, in
whatever order the network produces.  The trace below fixes the settle
order to index order; the theorems proved about it (all posts issued before
any response settles) hold under every settle order. -/

/-- A network happening of the earlier variant (bodies are not tracked:
that variant posts `transformKeys(record)`, whose nested-object result
lies outside the flat `Record` type). -/
inductive Event0 where
  | start (i : Nat)
  | settle (i : Nat) (ok : Bool)
deriving DecidableEq, Repr

/-- The earlier variant's run: data after all settles, and the event trace. -/
def handleSendDataV0 (resp : Nat → Bool) (data : List Record) :
    List Record × List Event0 :=
  let starts := (List.range data.length).map Event0.start
  (List.range data.length).foldl
    (fun st i =>
      (updateStatus st.1 i (if resp i then "Success" else "Failed"),
       st.2 ++ [Event0.settle i (resp i)]))
    (data, starts)

/-! ### Trace predicates -/

/-- Scan of a trace with the number of in-flight requests capped at one:
`seqFrom inflight tr` is true when no `start` happens while a request is
already in flight. -/
def seqFrom : Bool → List Event → Bool
  | _, [] => true
  | inflight, Event.start _ _ :: rest => !inflight && seqFrom true rest
  | _, Event.settle _ _ :: rest => seqFrom false rest

/-- At most one request is ever in flight. -/
def oneInFlight (tr : List Event) : Bool :=
  seqFrom false tr

/-- No `start` occurs anywhere in the trace. -/
def noStart0 : List Event0 → Bool
  | [] => true
  | Event0.start _ :: _ => false
  | Event0.settle _ _ :: rest => noStart0 rest

/-- Every `start` of the trace precedes every `settle`. -/
def allStartsFirst0 : List Event0 → Bool
  | [] => true
  | Event0.start _ :: rest => allStartsFirst0 rest
  | Event0.settle _ _ :: rest => noStart0 rest

/-- The row indices of the `start` events, in trace order. -/
def startIndices (tr : List Event) : List Nat :=
  tr.filterMap fun e =>
    match e with
    | Event.start i _ => some i
    | Event.settle _ _ => none

/-- The row indices of the `start` events of the earlier variant's trace. -/
def startIndices0 (tr : List Event0) : List Nat :=
  tr.filterMap fun e =>
    match e with
    | Event0.start i => some i
    | Event0.settle _ _ => none

/-- The bodies of the POST requests issued for row `i`, in trace order. -/
def startsFor (i : Nat) (tr : List Event) : List Record :=
  tr.filterMap fun e =>
    match e with
    | Event.start j b => if j == i then some b else none
    | Event.settle _ _ => none

/-! ### Derived per-row descriptions of a run -/

/-- Whether index `i` holds a locally valid record of `data`. -/
def validAt (data : List Record) (i : Nat) : Bool :=
  match data[i]? with
  | some r => isValidRecord r
  | none => false

/-- The status a processed row ends the run with. -/
def finalStatus (data : List Record) (resp : Nat → Bool) (i : Nat) : String :=
  if validAt data i then (if resp i then "Success" else "Failed")
  else "Data Incorrect"

/-- The status field of the `i`-th record of a dataset. -/
def statusAt (data : List Record) (i : Nat) : Option String :=
  match data[i]? with
  | some r => statusOf r
  | none => none

/-- The network events one loop iteration contributes. -/
def blockOf (data : List Record) (resp : Nat → Bool) (i : Nat) : List Event :=
  match data[i]? with
  | some r =>
      if isValidRecord r then [Event.start i r, Event.settle i (resp i)] else []
  | none => []

/-- The `updateStatus` calls one loop iteration contributes. -/
def updBlockOf (data : List Record) (resp : Nat → Bool) (i : Nat) :
    List (Nat × String) :=
  match data[i]? with
  | some r =>
      if isValidRecord r then
        [(i, "In Progress"), (i, if resp i then "Success" else "Failed")]
      else [(i, "Data Incorrect")]
  | none => []

/-- The `status` values written to row `i` during a run, in order. -/
def updatesFor (s : RunState) (i : Nat) : List String :=
  (s.updates.filter (fun p => p.1 == i)).map (fun p => p.2)

/-! ### The status state machine of the spec -/

/-- One forward edge of the submission pipeline
`Not Started → In Progress → Success / Failed`, `Not Started → Data Incorrect`. -/
def forwardStep (a b : String) : Bool :=
  (a == "Not Started" && (b == "In Progress" || b == "Data Incorrect")) ||
    (a == "In Progress" && (b == "Success" || b == "Failed"))

/-- A chain of forward edges starting from `a`. -/
def forwardChain : String → List String → Bool
  | _, [] => true
  | a, b :: rest => forwardStep a b && forwardChain b rest

/-! ### CSV export (`handleDownloadCSV`, complete variant, lines 182-200) -/

/-- The serialization and filename of `handleDownloadCSV`: the header row
is `Object.keys(data[0])`, followed by `Object.values(row)` for each row,
each row joined with `","` and the rows joined with `"\n"`, prefixed with
the data-URI header; the download attribute is the fixed filename.  The
source would throw on an empty dataset (`data[0]` is `undefined`); the
button invoking it is only rendered when the dataset is non-empty, and the
`[]` case below is a dead arm. -/
def handleDownloadCSV (data : List Record) : String × String :=
  match data with
  | [] => ("", "result_data.csv")
  | first :: _ =>
      let csvData : List (List String) :=
        (first.map (fun p => p.1)) :: data.map (fun row => row.map (fun p => p.2))
      ("data:text/csv;charset=utf-8," ++
         String.intercalate "\n" (csvData.map (fun e => String.intercalate "," e)),
       "result_data.csv")

/-- Modelled from the spec: "serialize the current Dataset (header row from
the first record's keys, then one line per record) into a comma-joined text
blob"; no escaping of any kind is applied to the cell values. -/
def spec_serializeCSV (first : Record) (rest : List Record) : String :=
  String.intercalate "\n"
    (String.intercalate "," (first.map (fun p => p.1)) ::
      (first :: rest).map (fun row => String.intercalate "," (row.map (fun p => p.2))))

/-! ### Claim-side validation predicate -/

/-- Modelled from the claim's premise: one of the three required fields is
empty (a present value that trims to the empty string), or the Asset Type
value (as compared by the validation, i.e. after trimming; an absent value
counts as outside) is not one of the three allowed constants. -/
def spec_rowViolation (r : Record) : Bool :=
  (match lookupField r "Triplet Id" with
   | some v => jsTrim v == ""
   | none => false) ||
  (match lookupField r "Asset Id" with
   | some v => jsTrim v == ""
   | none => false) ||
  !assetTypeAllowed r

/-! ### Characterization of a run, step by step -/

theorem sendLoop_append (resp : Nat → Bool) (orig : List Record)
    (l1 l2 : List Nat) (s : RunState) :
    sendLoop resp orig (l1 ++ l2) s = sendLoop resp orig l2 (sendLoop resp orig l1 s) := by
  induction l1 generalizing s with
  | nil => rfl
  | cons i rest ih =>
      simp only [List.cons_append, sendLoop]
      exact ih _

theorem stepRow_events (resp : Nat → Bool) (orig : List Record) (s : RunState)
    (i : Nat) :
    (stepRow resp orig s i).events = s.events ++ blockOf orig resp i := by
  cases hr : orig[i]? with
  | none => simp [stepRow, blockOf, hr]
  | some r =>
      by_cases hv : isValidRecord r
      · by_cases hl : (i == orig.length - 1) = true
        · simp [stepRow, blockOf, hr, hv, hl, sendData, applyUpdate]
        · simp [stepRow, blockOf, hr, hv, hl, sendData, applyUpdate]
      · simp [stepRow, blockOf, hr, hv, applyUpdate]

theorem stepRow_updates (resp : Nat → Bool) (orig : List Record) (s : RunState)
    (i : Nat) :
    (stepRow resp orig s i).updates = s.updates ++ updBlockOf orig resp i := by
  cases hr : orig[i]? with
  | none => simp [stepRow, updBlockOf, hr]
  | some r =>
      by_cases hv : isValidRecord r
      · by_cases hl : (i == orig.length - 1) = true
        · simp [stepRow, updBlockOf, hr, hv, hl, sendData, applyUpdate]
        · simp [stepRow, updBlockOf, hr, hv, hl, sendData, applyUpdate]
      · simp [stepRow, updBlockOf, hr, hv, applyUpdate]

theorem stepRow_data_ne (resp : Nat → Bool) (orig : List Record) (s : RunState)
    (i j : Nat) (h : i ≠ j) :
    (stepRow resp orig s j).data[i]? = s.data[i]? := by
  cases hr : orig[j]? with
  | none => simp [stepRow, hr]
  | some r =>
      by_cases hv : isValidRecord r
      · by_cases hl : (j == orig.length - 1) = true
        · simp only [stepRow, hr, hv, hl, sendData, applyUpdate, if_pos, if_true]
          rw [getElem?_updateStatus_ne _ _ _ _ h, getElem?_updateStatus_ne _ _ _ _ h]
        · simp only [stepRow, hr, hv, hl, sendData, applyUpdate, if_true,
            Bool.false_eq_true, if_false]
          rw [getElem?_updateStatus_ne _ _ _ _ h, getElem?_updateStatus_ne _ _ _ _ h]
      · simp only [stepRow, hr, hv, applyUpdate, Bool.false_eq_true, if_false,
          Bool.not_eq_true]
        rw [getElem?_updateStatus_ne _ _ _ _ h]

theorem stepRow_data_self (resp : Nat → Bool) (orig : List Record) (s : RunState)
    (i : Nat) (r : Record) (hr : orig[i]? = some r) :
    (stepRow resp orig s i).data[i]? =
      (s.data[i]?).map (fun x => setKey x "status" (finalStatus orig resp i)) := by
  have hval : validAt orig i = isValidRecord r := by
    unfold validAt
    rw [hr]
  by_cases hv : isValidRecord r
  · have hfin : finalStatus orig resp i = (if resp i then "Success" else "Failed") := by
      unfold finalStatus
      rw [hval, if_pos hv]
    by_cases hl : (i == orig.length - 1) = true
    · simp only [stepRow, hr, hv, hl, sendData, applyUpdate, if_pos, if_true]
      rw [getElem?_updateStatus_self, getElem?_updateStatus_self, Option.map_map, hfin]
      cases s.data[i]? with
      | none => rfl
      | some x => simp [Function.comp, setKey_setKey]
    · simp only [stepRow, hr, hv, hl, sendData, applyUpdate, if_true,
        Bool.false_eq_true, if_false]
      rw [getElem?_updateStatus_self, getElem?_updateStatus_self, Option.map_map, hfin]
      cases s.data[i]? with
      | none => rfl
      | some x => simp [Function.comp, setKey_setKey]
  · have hfin : finalStatus orig resp i = "Data Incorrect" := by
      unfold finalStatus
      rw [hval, if_neg hv]
    simp only [stepRow, hr, applyUpdate]
    rw [if_neg hv, hfin]
    exact getElem?_updateStatus_self s.data i "Data Incorrect"

theorem stepRow_data_length (resp : Nat → Bool) (orig : List Record)
    (s : RunState) (i : Nat) :
    (stepRow resp orig s i).data.length = s.data.length := by
  cases hr : orig[i]? with
  | none => simp [stepRow, hr]
  | some r =>
      by_cases hv : isValidRecord r
      · by_cases hl : (i == orig.length - 1) = true
        · simp [stepRow, hr, hv, hl, sendData, applyUpdate, length_updateStatus]
        · simp [stepRow, hr, hv, hl, sendData, applyUpdate, length_updateStatus]
      · simp [stepRow, hr, hv, applyUpdate, length_updateStatus]

theorem stepRow_flags (resp : Nat → Bool) (orig : List Record) (s : RunState)
    (i : Nat) :
    (stepRow resp orig s i).showResultButton =
        (if (i == orig.length - 1) && validAt orig i then "inline"
         else s.showResultButton) ∧
      (stepRow resp orig s i).addAssetButtonName =
        (if (i == orig.length - 1) && validAt orig i then "Add Assets"
         else s.addAssetButtonName) ∧
      (stepRow resp orig s i).disableAssetButton =
        (if (i == orig.length - 1) && validAt orig i then false
         else s.disableAssetButton) := by
  cases hr : orig[i]? with
  | none => simp [stepRow, validAt, hr]
  | some r =>
      by_cases hv : isValidRecord r
      · by_cases hl : (i == orig.length - 1) = true
        · simp [stepRow, validAt, hr, hv, hl, sendData, applyUpdate]
        · simp [stepRow, validAt, hr, hv, hl, sendData, applyUpdate]
      · simp [stepRow, validAt, hr, hv, applyUpdate]

theorem sendLoop_events (resp : Nat → Bool) (orig : List Record)
    (idxs : List Nat) (s : RunState) :
    (sendLoop resp orig idxs s).events =
      s.events ++ idxs.flatMap (blockOf orig resp) := by
  induction idxs generalizing s with
  | nil => simp [sendLoop]
  | cons i rest ih =>
      rw [sendLoop, ih, stepRow_events]
      simp

theorem sendLoop_updates (resp : Nat → Bool) (orig : List Record)
    (idxs : List Nat) (s : RunState) :
    (sendLoop resp orig idxs s).updates =
      s.updates ++ idxs.flatMap (updBlockOf orig resp) := by
  induction idxs generalizing s with
  | nil => simp [sendLoop]
  | cons i rest ih =>
      rw [sendLoop, ih, stepRow_updates]
      simp

theorem sendLoop_data_notMem (resp : Nat → Bool) (orig : List Record)
    (idxs : List Nat) (s : RunState) (i : Nat) (h : i ∉ idxs) :
    (sendLoop resp orig idxs s).data[i]? = s.data[i]? := by
  induction idxs generalizing s with
  | nil => rfl
  | cons j rest ih =>
      rw [sendLoop, ih _ (fun hm => h (List.mem_cons_of_mem j hm)),
        stepRow_data_ne resp orig s i j (fun he => h (he ▸ List.mem_cons_self j rest))]

theorem sendLoop_data_mem (resp : Nat → Bool) (orig : List Record)
    (idxs : List Nat) (s : RunState) (i : Nat) (r : Record)
    (hnd : idxs.Nodup) (hmem : i ∈ idxs) (hr : orig[i]? = some r) :
    (sendLoop resp orig idxs s).data[i]? =
      (s.data[i]?).map (fun x => setKey x "status" (finalStatus orig resp i)) := by
  induction idxs generalizing s with
  | nil => cases hmem
  | cons j rest ih =>
      rw [List.nodup_cons] at hnd
      rcases List.mem_cons.1 hmem with hj | hrest
      · subst hj
        rw [sendLoop, sendLoop_data_notMem resp orig rest _ i hnd.1,
          stepRow_data_self resp orig s i r hr]
      · have hij : i ≠ j := fun he => hnd.1 (he ▸ hrest)
        rw [sendLoop, ih _ hnd.2 hrest, stepRow_data_ne resp orig s i j hij]

theorem sendLoop_data_length (resp : Nat → Bool) (orig : List Record)
    (idxs : List Nat) (s : RunState) :
    (sendLoop resp orig idxs s).data.length = s.data.length := by
  induction idxs generalizing s with
  | nil => rfl
  | cons j rest ih =>
      rw [sendLoop, ih, stepRow_data_length]

theorem sendLoop_flags_preserved (resp : Nat → Bool) (orig : List Record)
    (idxs : List Nat) (s : RunState)
    (h : ∀ j ∈ idxs, ((j == orig.length - 1) && validAt orig j) = false) :
    (sendLoop resp orig idxs s).showResultButton = s.showResultButton ∧
      (sendLoop resp orig idxs s).addAssetButtonName = s.addAssetButtonName ∧
      (sendLoop resp orig idxs s).disableAssetButton = s.disableAssetButton := by
  induction idxs generalizing s with
  | nil => exact ⟨rfl, rfl, rfl⟩
  | cons j rest ih =>
      have hj := h j (List.mem_cons_self j rest)
      have hrest : ∀ j ∈ rest, ((j == orig.length - 1) && validAt orig j) = false :=
        fun j hm => h j (List.mem_cons_of_mem _ hm)
      have hstep := stepRow_flags resp orig s j
      rw [hj] at hstep
      simp only [Bool.false_eq_true, if_false] at hstep
      rw [sendLoop]
      obtain ⟨e1, e2, e3⟩ := ih (stepRow resp orig s j) hrest
      exact ⟨e1.trans hstep.1, e2.trans hstep.2.1, e3.trans hstep.2.2⟩

theorem handleSendData_events (resp : Nat → Bool) (data : List Record)
    (show0 : String) :
    (handleSendData resp data show0).events =
      (List.range data.length).flatMap (blockOf data resp) := by
  rw [handleSendData, sendLoop_events]
  rfl

theorem handleSendData_updates (resp : Nat → Bool) (data : List Record)
    (show0 : String) :
    (handleSendData resp data show0).updates =
      (List.range data.length).flatMap (updBlockOf data resp) := by
  rw [handleSendData, sendLoop_updates]
  rfl

theorem handleSendData_data_length (resp : Nat → Bool) (data : List Record)
    (show0 : String) :
    (handleSendData resp data show0).data.length = data.length := by
  rw [handleSendData, sendLoop_data_length]

theorem handleSendData_statusAt (resp : Nat → Bool) (data : List Record)
    (show0 : String) (i : Nat) (h : i < data.length) :
    statusAt (handleSendData resp data show0).data i =
      some (finalStatus data resp i) := by
  have hr : data[i]? = some data[i] := List.getElem?_eq_getElem h
  have hchar := sendLoop_data_mem resp data (List.range data.length)
    { data := data, events := [], updates := [],
      showResultButton := show0,
      addAssetButtonName := "Adding...",
      disableAssetButton := true }
    i data[i] (List.nodup_range _) (List.mem_range.2 h) hr
  rw [handleSendData, statusAt, hchar, hr]
  exact statusOf_setKey_status _ _

theorem handleSendData_flags (resp : Nat → Bool) (data : List Record)
    (show0 : String) (h : 0 < data.length) :
    (handleSendData resp data show0).showResultButton =
        (if validAt data (data.length - 1) then "inline" else show0) ∧
      (handleSendData resp data show0).addAssetButtonName =
        (if validAt data (data.length - 1) then "Add Assets" else "Adding...") ∧
      (handleSendData resp data show0).disableAssetButton =
        (if validAt data (data.length - 1) then false else true) := by
  have hsplit : List.range data.length =
      List.range (data.length - 1) ++ [data.length - 1] := by
    have hn : data.length = (data.length - 1) + 1 := (Nat.succ_pred_eq_of_pos h).symm
    calc List.range data.length = List.range ((data.length - 1) + 1) := by rw [← hn]
    _ = List.range (data.length - 1) ++ [data.length - 1] := by rw [List.range_succ]
  rw [handleSendData, hsplit, sendLoop_append]
  have hmid := sendLoop_flags_preserved resp data (List.range (data.length - 1))
    { data := data, events := [], updates := [],
      showResultButton := show0,
      addAssetButtonName := "Adding...",
      disableAssetButton := true }
    (by
      intro j hj
      have hlt : j < data.length - 1 := List.mem_range.1 hj
      have : (j == data.length - 1) = false := by
        simpa using Nat.ne_of_lt hlt
      rw [this]
      rfl)
  have hlast := stepRow_flags resp data
    (sendLoop resp data (List.range (data.length - 1))
      { data := data, events := [], updates := [],
        showResultButton := show0,
        addAssetButtonName := "Adding...",
        disableAssetButton := true })
    (data.length - 1)
  have hbeq : (data.length - 1 == data.length - 1) = true := by simp
  rw [hbeq, Bool.true_and] at hlast
  show (sendLoop resp data [data.length - 1] _).showResultButton = _ ∧ _ ∧ _
  rw [sendLoop, sendLoop]
  by_cases hv : validAt data (data.length - 1) = true
  · simp only [hv, if_true] at hlast ⊢
    exact hlast
  · have hv' : validAt data (data.length - 1) = false := by
      cases hq : validAt data (data.length - 1) with
      | true => exact absurd hq hv
      | false => rfl
    simp only [hv', Bool.false_eq_true, if_false] at hlast ⊢
    exact ⟨hlast.1.trans hmid.1, (hlast.2.1).trans hmid.2.1, (hlast.2.2).trans hmid.2.2⟩

/-! ### Trace lemmas -/

theorem seqFrom_false_block_append (orig : List Record) (resp : Nat → Bool)
    (i : Nat) (tr : List Event) :
    seqFrom false (blockOf orig resp i ++ tr) = seqFrom false tr := by
  cases hr : orig[i]? with
  | none => simp [blockOf, hr]
  | some r =>
      by_cases hv : isValidRecord r
      · simp [blockOf, hr, hv, seqFrom]
      · simp [blockOf, hr, hv]

theorem seqFrom_false_flatMap (orig : List Record) (resp : Nat → Bool)
    (idxs : List Nat) :
    seqFrom false (idxs.flatMap (blockOf orig resp)) = true := by
  induction idxs with
  | nil => rfl
  | cons i rest ih =>
      rw [List.flatMap_cons, seqFrom_false_block_append]
      exact ih

theorem startIndices_append (a b : List Event) :
    startIndices (a ++ b) = startIndices a ++ startIndices b := by
  unfold startIndices
  rw [List.filterMap_append]

theorem startIndices_block (orig : List Record) (resp : Nat → Bool) (i : Nat) :
    startIndices (blockOf orig resp i) =
      if validAt orig i then [i] else [] := by
  cases hr : orig[i]? with
  | none => simp [startIndices, blockOf, validAt, hr]
  | some r =>
      by_cases hv : isValidRecord r
      · simp [startIndices, blockOf, validAt, hr, hv]
      · simp [startIndices, blockOf, validAt, hr, hv]

theorem startIndices_flatMap (orig : List Record) (resp : Nat → Bool)
    (idxs : List Nat) :
    startIndices (idxs.flatMap (blockOf orig resp)) =
      idxs.filter (validAt orig) := by
  induction idxs with
  | nil => rfl
  | cons i rest ih =>
      rw [List.flatMap_cons, startIndices_append, startIndices_block, ih,
        List.filter_cons]
      by_cases hv : validAt orig i
      · rw [if_pos hv, if_pos hv]
        rfl
      · rw [if_neg hv, if_neg hv]
        rfl

theorem startsFor_append (i : Nat) (a b : List Event) :
    startsFor i (a ++ b) = startsFor i a ++ startsFor i b := by
  unfold startsFor
  rw [List.filterMap_append]

theorem startsFor_block_ne (orig : List Record) (resp : Nat → Bool)
    (i j : Nat) (h : j ≠ i) :
    startsFor i (blockOf orig resp j) = [] := by
  have hb : (j == i) = false := by simpa using h
  cases hr : orig[j]? with
  | none => simp [startsFor, blockOf, hr]
  | some r =>
      by_cases hv : isValidRecord r
      · simp only [startsFor, blockOf, hr, hv, if_true, List.filterMap_cons,
          hb, Bool.false_eq_true, if_false, List.filterMap_nil]
      · simp [startsFor, blockOf, hr, hv]

theorem startsFor_block_self (orig : List Record) (resp : Nat → Bool)
    (i : Nat) (r : Record) (hr : orig[i]? = some r) :
    startsFor i (blockOf orig resp i) =
      if isValidRecord r then [r] else [] := by
  by_cases hv : isValidRecord r
  · simp [startsFor, blockOf, hr, hv]
  · simp [startsFor, blockOf, hr, hv]

theorem startsFor_flatMap_notMem (orig : List Record) (resp : Nat → Bool)
    (i : Nat) (idxs : List Nat) (h : i ∉ idxs) :
    startsFor i (idxs.flatMap (blockOf orig resp)) = [] := by
  induction idxs with
  | nil => rfl
  | cons j rest ih =>
      rw [List.flatMap_cons, startsFor_append,
        startsFor_block_ne orig resp i j (fun he => h (he ▸ List.mem_cons_self j rest)),
        ih (fun hm => h (List.mem_cons_of_mem j hm))]
      rfl

theorem startsFor_flatMap_mem (orig : List Record) (resp : Nat → Bool)
    (i : Nat) (idxs : List Nat) (hnd : idxs.Nodup) (hmem : i ∈ idxs) :
    startsFor i (idxs.flatMap (blockOf orig resp)) =
      startsFor i (blockOf orig resp i) := by
  induction idxs with
  | nil => cases hmem
  | cons j rest ih =>
      rw [List.nodup_cons] at hnd
      rw [List.flatMap_cons, startsFor_append]
      rcases List.mem_cons.1 hmem with hj | hrest
      · subst hj
        rw [startsFor_flatMap_notMem orig resp i rest hnd.1]
        simp
      · have hji : j ≠ i := fun he => hnd.1 (he ▸ hrest)
        rw [startsFor_block_ne orig resp i j hji, ih hnd.2 hrest]
        rfl

theorem filter_updBlock_ne (orig : List Record) (resp : Nat → Bool)
    (i j : Nat) (h : j ≠ i) :
    (updBlockOf orig resp j).filter (fun p => p.1 == i) = [] := by
  have hb : (j == i) = false := by simpa using h
  cases hr : orig[j]? with
  | none => simp [updBlockOf, hr]
  | some r =>
      by_cases hv : isValidRecord r
      · simp [updBlockOf, hr, hv, hb]
      · simp [updBlockOf, hr, hv, hb]

theorem filter_updBlock_self (orig : List Record) (resp : Nat → Bool) (i : Nat) :
    (updBlockOf orig resp i).filter (fun p => p.1 == i) = updBlockOf orig resp i := by
  cases hr : orig[i]? with
  | none => simp [updBlockOf, hr]
  | some r =>
      by_cases hv : isValidRecord r
      · simp [updBlockOf, hr, hv]
      · simp [updBlockOf, hr, hv]

theorem filter_updBlock_flatMap (orig : List Record) (resp : Nat → Bool)
    (i : Nat) (idxs : List Nat) (hnd : idxs.Nodup) (hmem : i ∈ idxs) :
    (idxs.flatMap (updBlockOf orig resp)).filter (fun p => p.1 == i) =
      updBlockOf orig resp i := by
  induction idxs with
  | nil => cases hmem
  | cons j rest ih =>
      rw [List.nodup_cons] at hnd
      rw [List.flatMap_cons, List.filter_append]
      rcases List.mem_cons.1 hmem with hj | hrest
      · subst hj
        rw [filter_updBlock_self]
        have : ∀ l : List Nat, i ∉ l →
            (l.flatMap (updBlockOf orig resp)).filter (fun p => p.1 == i) = [] := by
          intro l
          induction l with
          | nil => intro _; rfl
          | cons a as iha =>
              intro hno
              rw [List.flatMap_cons, List.filter_append,
                filter_updBlock_ne orig resp i a
                  (fun he => hno (he ▸ List.mem_cons_self a as)),
                iha (fun hm => hno (List.mem_cons_of_mem a hm))]
              rfl
        rw [this rest hnd.1]
        simp
      · have hji : j ≠ i := fun he => hnd.1 (he ▸ hrest)
        rw [filter_updBlock_ne orig resp i j hji, ih hnd.2 hrest]
        rfl

/-! ### Trace lemmas for the earlier variant -/

theorem handleSendDataV0_events (resp : Nat → Bool) (data : List Record) :
    (handleSendDataV0 resp data).2 =
      (List.range data.length).map Event0.start ++
        (List.range data.length).map (fun i => Event0.settle i (resp i)) := by
  have hfold : ∀ (l : List Nat) (d : List Record) (acc : List Event0),
      ((l.foldl
          (fun st i =>
            (updateStatus st.1 i (if resp i then "Success" else "Failed"),
             st.2 ++ [Event0.settle i (resp i)]))
          (d, acc)).2) =
        acc ++ l.map (fun i => Event0.settle i (resp i)) := by
    intro l
    induction l with
    | nil => intro d acc; simp
    | cons i rest ih =>
        intro d acc
        rw [List.foldl_cons, ih]
        simp
  rw [handleSendDataV0]
  exact hfold _ _ _

theorem noStart0_settles (resp : Nat → Bool) (l : List Nat) :
    noStart0 (l.map (fun i => Event0.settle i (resp i))) = true := by
  induction l with
  | nil => rfl
  | cons i rest ih => simpa [noStart0] using ih

theorem allStartsFirst0_of_starts_settles (resp : Nat → Bool)
    (is ss : List Nat) :
    allStartsFirst0 (is.map Event0.start ++
      ss.map (fun i => Event0.settle i (resp i))) = true := by
  induction is with
  | nil =>
      cases ss with
      | nil => rfl
      | cons i rest =>
          simpa [allStartsFirst0] using noStart0_settles resp rest
  | cons i rest ih => simpa [allStartsFirst0] using ih

theorem startIndices0_append (a b : List Event0) :
    startIndices0 (a ++ b) = startIndices0 a ++ startIndices0 b := by
  unfold startIndices0
  rw [List.filterMap_append]

theorem startIndices0_starts (is : List Nat) :
    startIndices0 (is.map Event0.start) = is := by
  induction is with
  | nil => rfl
  | cons i rest ih => simpa [startIndices0] using ih

theorem startIndices0_settles (resp : Nat → Bool) (ss : List Nat) :
    startIndices0 (ss.map (fun i => Event0.settle i (resp i))) = [] := by
  induction ss with
  | nil => rfl
  | cons i rest ih => simp [startIndices0] at ih ⊢

/-! ### Further helpers -/

theorem handleParse_cons (first : Record) (rest : List Record) (st : ParseState) :
    handleParse (first :: rest) st =
      if headersOK first then
        { st with
          data := (first :: rest).map (fun record => setKey record "status" "Not Started") }
      else { error := missingHeadersMsg, data := [] } := by
  unfold handleParse headersOK
  cases h1 : hasKey first "Triplet Id" <;> cases h2 : hasKey first "Asset Id" <;>
    cases h3 : hasKey first "Asset Type" <;> simp [h1, h2, h3]

theorem invalid_of_spec_rowViolation (r : Record)
    (h : spec_rowViolation r = true) : isValidRecord r = false := by
  unfold spec_rowViolation at h
  rw [Bool.or_eq_true, Bool.or_eq_true] at h
  rcases h with (h1 | h1) | h1
  · have hf : fieldFilled r "Triplet Id" = false := by
      unfold fieldFilled
      cases hl : lookupField r "Triplet Id" with
      | none =>
          rw [hl] at h1
          simp at h1
      | some v =>
          rw [hl] at h1
          simpa using h1
    simp [isValidRecord, hf]
  · have hf : fieldFilled r "Asset Id" = false := by
      unfold fieldFilled
      cases hl : lookupField r "Asset Id" with
      | none =>
          rw [hl] at h1
          simp at h1
      | some v =>
          rw [hl] at h1
          simpa using h1
    simp [isValidRecord, hf]
  · have hf : assetTypeAllowed r = false := by simpa using h1
    simp [isValidRecord, hf]

theorem lt_length_of_getElem?_eq_some {α : Type} (l : List α) (i : Nat) (a : α)
    (h : l[i]? = some a) : i < l.length := by
  by_contra hno
  rw [List.getElem?_eq_none (Nat.le_of_not_lt hno)] at h
  cases h

/-! ### The claims -/

/-- C1: a row whose required field (Triplet Id or Asset Id) is empty — a
present value trimming to the empty string — or whose Asset Type value is
outside the allowed set (in the sense the validation compares it, i.e.
after trimming, with an absent value counting as outside) ends the run
with status `Data Incorrect`, and no POST request is issued for it. -/
theorem claim1_invalid_row_marked_no_post (data : List Record)
    (resp : Nat → Bool) (show0 : String) (i : Nat) (r : Record)
    (hr : data[i]? = some r) (hb : spec_rowViolation r = true) :
    statusAt (handleSendData resp data show0).data i = some "Data Incorrect" ∧
      startsFor i (handleSendData resp data show0).events = [] := by
  have hv : isValidRecord r = false := invalid_of_spec_rowViolation r hb
  have hlt : i < data.length := lt_length_of_getElem?_eq_some data i r hr
  have hvalid : validAt data i = false := by
    unfold validAt
    rw [hr]
    exact hv
  constructor
  · rw [handleSendData_statusAt resp data show0 i hlt]
    unfold finalStatus
    rw [hvalid]
    rfl
  · rw [handleSendData_events,
      startsFor_flatMap_mem data resp i (List.range data.length)
        (List.nodup_range _) (List.mem_range.2 hlt),
      startsFor_block_self data resp i r hr, hv]
    rfl

/-- C1 witness: a concrete row whose Asset Type is outside the allowed
set is marked `Data Incorrect` and produces no request. -/
theorem claim1_witness :
    ([[("Triplet Id", "1"), ("Asset Id", "101"), ("Asset Type", "BOGUS_TYPE"),
        ("status", "Not Started")]] :
          List Record)[0]? =
        some [("Triplet Id", "1"), ("Asset Id", "101"), ("Asset Type", "BOGUS_TYPE"),
          ("status", "Not Started")] ∧
      spec_rowViolation
        [("Triplet Id", "1"), ("Asset Id", "101"), ("Asset Type", "BOGUS_TYPE"),
          ("status", "Not Started")] = true ∧
      statusAt
          (handleSendData (fun _ => true)
            [[("Triplet Id", "1"), ("Asset Id", "101"), ("Asset Type", "BOGUS_TYPE"),
              ("status", "Not Started")]] "none").data 0 =
        some "Data Incorrect" ∧
      startsFor 0
          (handleSendData (fun _ => true)
            [[("Triplet Id", "1"), ("Asset Id", "101"), ("Asset Type", "BOGUS_TYPE"),
              ("status", "Not Started")]] "none").events = [] := by
  refine ⟨by decide, by decide, ?_⟩
  exact claim1_invalid_row_marked_no_post
    [[("Triplet Id", "1"), ("Asset Id", "101"), ("Asset Type", "BOGUS_TYPE"),
      ("status", "Not Started")]]
    (fun _ => true) "none" 0
    [("Triplet Id", "1"), ("Asset Id", "101"), ("Asset Type", "BOGUS_TYPE"),
      ("status", "Not Started")]
    (by decide) (by decide)

/-- C7: a locally valid row produces exactly one POST, whose body is the
row itself (the record as it stood when the run began), and its final
status is `Success` exactly when the response succeeds, `Failed` on any
failure. -/
theorem claim7_valid_row_one_post_outcome (data : List Record)
    (resp : Nat → Bool) (show0 : String) (i : Nat) (r : Record)
    (hr : data[i]? = some r) (hv : isValidRecord r = true) :
    startsFor i (handleSendData resp data show0).events = [r] ∧
      statusAt (handleSendData resp data show0).data i =
        some (if resp i then "Success" else "Failed") := by
  have hlt : i < data.length := lt_length_of_getElem?_eq_some data i r hr
  have hvalid : validAt data i = true := by
    unfold validAt
    rw [hr]
    exact hv
  constructor
  · rw [handleSendData_events,
      startsFor_flatMap_mem data resp i (List.range data.length)
        (List.nodup_range _) (List.mem_range.2 hlt),
      startsFor_block_self data resp i r hr, hv]
    rfl
  · rw [handleSendData_statusAt resp data show0 i hlt]
    unfold finalStatus
    rw [hvalid]
    rfl

/-- C7 witness: a concrete valid row is posted exactly once and ends
`Success` under a succeeding response and `Failed` under a failing one. -/
theorem claim7_witness :
    startsFor 0
        (handleSendData (fun _ => true)
          [[("Triplet Id", "1"), ("Asset Id", "101"), ("Asset Type", "SYSTEM"),
            ("status", "Not Started")]] "none").events =
      [[("Triplet Id", "1"), ("Asset Id", "101"), ("Asset Type", "SYSTEM"),
        ("status", "Not Started")]] ∧
    statusAt
        (handleSendData (fun _ => true)
          [[("Triplet Id", "1"), ("Asset Id", "101"), ("Asset Type", "SYSTEM"),
            ("status", "Not Started")]] "none").data 0 = some "Success" ∧
    statusAt
        (handleSendData (fun _ => false)
          [[("Triplet Id", "1"), ("Asset Id", "101"), ("Asset Type", "SYSTEM"),
            ("status", "Not Started")]] "none").data 0 = some "Failed" := by
  refine ⟨?_, ?_, ?_⟩
  · exact (claim7_valid_row_one_post_outcome
      [[("Triplet Id", "1"), ("Asset Id", "101"), ("Asset Type", "SYSTEM"),
        ("status", "Not Started")]]
      (fun _ => true) "none" 0
      [("Triplet Id", "1"), ("Asset Id", "101"), ("Asset Type", "SYSTEM"),
        ("status", "Not Started")]
      (by decide) (by decide)).1
  · exact (claim7_valid_row_one_post_outcome
      [[("Triplet Id", "1"), ("Asset Id", "101"), ("Asset Type", "SYSTEM"),
        ("status", "Not Started")]]
      (fun _ => true) "none" 0
      [("Triplet Id", "1"), ("Asset Id", "101"), ("Asset Type", "SYSTEM"),
        ("status", "Not Started")]
      (by decide) (by decide)).2
  · exact (claim7_valid_row_one_post_outcome
      [[("Triplet Id", "1"), ("Asset Id", "101"), ("Asset Type", "SYSTEM"),
        ("status", "Not Started")]]
      (fun _ => false) "none" 0
      [("Triplet Id", "1"), ("Asset Id", "101"), ("Asset Type", "SYSTEM"),
        ("status", "Not Started")]
      (by decide) (by decide)).2

/-- C2: in the complete variant at most one request is ever in flight and
the requests are issued in row order (the start indices are exactly the
valid indices, in increasing order), i.e. each row's call settles before
the next row's call starts; in the earlier variant every request is
dispatched before any response settles, one per row. -/
theorem claim2_sequential_vs_concurrent (data : List Record)
    (resp : Nat → Bool) (show0 : String) :
    oneInFlight (handleSendData resp data show0).events = true ∧
      startIndices (handleSendData resp data show0).events =
        (List.range data.length).filter (validAt data) ∧
      allStartsFirst0 (handleSendDataV0 resp data).2 = true ∧
      startIndices0 (handleSendDataV0 resp data).2 = List.range data.length := by
  refine ⟨?_, ?_, ?_, ?_⟩
  · rw [oneInFlight, handleSendData_events]
    exact seqFrom_false_flatMap data resp (List.range data.length)
  · rw [handleSendData_events]
    exact startIndices_flatMap data resp (List.range data.length)
  · rw [handleSendDataV0_events]
    exact allStartsFirst0_of_starts_settles resp _ _
  · rw [handleSendDataV0_events, startIndices0_append, startIndices0_starts,
      startIndices0_settles]
    simp

/-- C3: on a non-empty parse result, a first row missing any of the three
required headers makes the import fail with the missing-headers message
and clear the Dataset; with all three present, the import accepts and
tags every row with status `Not Started`. -/
theorem claim3_header_validation (first : Record) (rest : List Record)
    (st : ParseState) :
    (headersOK first = false →
        handleParse (first :: rest) st =
          { error := missingHeadersMsg, data := [] }) ∧
      (headersOK first = true →
        (handleParse (first :: rest) st).error = st.error ∧
          (handleParse (first :: rest) st).data.length = rest.length + 1 ∧
          ∀ r ∈ (handleParse (first :: rest) st).data,
            statusOf r = some "Not Started") := by
  constructor
  · intro h
    rw [handleParse_cons, h]
    rfl
  · intro h
    rw [handleParse_cons, h]
    refine ⟨rfl, by simp, ?_⟩
    intro r hrmem
    simp only [if_true, List.mem_map] at hrmem
    obtain ⟨x, _, hx⟩ := hrmem
    rw [← hx]
    exact statusOf_setKey_status x "Not Started"

/-- C3 witness: a concrete bad header row yields the error state, and a
concrete good one tags the rows. -/
theorem claim3_witness :
    handleParse [[("Header1", "Value1")]] { error := "", data := [] } =
        { error := missingHeadersMsg, data := [] } ∧
      ∀ r ∈ (handleParse
          [[("Triplet Id", "1"), ("Asset Id", "101"), ("Asset Type", "SYSTEM")]]
          { error := "", data := [] }).data,
        statusOf r = some "Not Started" := by
  constructor
  · exact (claim3_header_validation [("Header1", "Value1")] []
      { error := "", data := [] }).1 (by decide)
  · exact ((claim3_header_validation
      [("Triplet Id", "1"), ("Asset Id", "101"), ("Asset Type", "SYSTEM")] []
      { error := "", data := [] }).2 (by decide)).2.2

/-- C6: the claim says an empty parse result surfaces a distinct
empty-file message; the code (complete variant, line 98) silently
returns and leaves the whole state — in particular the displayed error
message — unchanged, while the repository's own test suite expects the
message "Empty file".  This theorem evaluates the code's behaviour on an
empty parse result. -/
theorem claim6_empty_parse_changes_nothing (st : ParseState) :
    handleParse [] st = st :=
  rfl

/-- C4 counterexample: a one-row Dataset whose single (and hence last) row
fails local validation.  The run processes the last row — its status
becomes `Data Incorrect` — yet the download button stays hidden, the
submit control keeps its busy label and stays disabled, because the
completion handling lives inside `sendData`, which is never called for an
invalid row. -/
theorem claim4_counterexample :
    statusAt
        (handleSendData (fun _ => true)
          [[("Triplet Id", ""), ("Asset Id", "101"), ("Asset Type", "SYSTEM"),
            ("status", "Not Started")]] "none").data 0 = some "Data Incorrect" ∧
      (handleSendData (fun _ => true)
          [[("Triplet Id", ""), ("Asset Id", "101"), ("Asset Type", "SYSTEM"),
            ("status", "Not Started")]] "none").showResultButton = "none" ∧
      (handleSendData (fun _ => true)
          [[("Triplet Id", ""), ("Asset Id", "101"), ("Asset Type", "SYSTEM"),
            ("status", "Not Started")]] "none").addAssetButtonName = "Adding..." ∧
      (handleSendData (fun _ => true)
          [[("Triplet Id", ""), ("Asset Id", "101"), ("Asset Type", "SYSTEM"),
            ("status", "Not Started")]] "none").disableAssetButton = true := by
  decide

/-- C4 (amended): when a submission run ends and the LAST row of the
Dataset passed local validation (so `sendData` ran for it), the download
affordance becomes visible and the submit control returns to its idle
label and re-enables; when the last row is locally invalid these updates
do not happen. -/
theorem claim4_amended_completion_ui (data : List Record) (resp : Nat → Bool)
    (show0 : String) (h : 0 < data.length)
    (hv : validAt data (data.length - 1) = true) :
    (handleSendData resp data show0).showResultButton = "inline" ∧
      (handleSendData resp data show0).addAssetButtonName = "Add Assets" ∧
      (handleSendData resp data show0).disableAssetButton = false := by
  have hf := handleSendData_flags resp data show0 h
  rw [hv] at hf
  simpa using hf

/-- C4 witness: a concrete one-row valid Dataset re-enables the UI. -/
theorem claim4_witness :
    (handleSendData (fun _ => true)
        [[("Triplet Id", "9"), ("Asset Id", "109"), ("Asset Type", "SYSTEM"),
          ("status", "Not Started")]] "none").showResultButton = "inline" ∧
      (handleSendData (fun _ => true)
          [[("Triplet Id", "9"), ("Asset Id", "109"), ("Asset Type", "SYSTEM"),
            ("status", "Not Started")]] "none").addAssetButtonName = "Add Assets" ∧
      (handleSendData (fun _ => true)
          [[("Triplet Id", "9"), ("Asset Id", "109"), ("Asset Type", "SYSTEM"),
            ("status", "Not Started")]] "none").disableAssetButton = false :=
  claim4_amended_completion_ui
    [[("Triplet Id", "9"), ("Asset Id", "109"), ("Asset Type", "SYSTEM"),
      ("status", "Not Started")]]
    (fun _ => true) "none" (by decide) (by decide)

/-- C5 counterexample: a Success state is reachable (first conjunct:
a run over a fresh `Not Started` row ends with the row's status
`Success`); running `handleSendData` again on that resulting Dataset —
an operation that is not a re-import, and is possible because the submit
button re-enabled — first writes `In Progress` over `Success`, a
transition backwards along the pipeline (third conjunct). -/
theorem claim5_counterexample :
    (handleSendData (fun _ => true)
        [[("Triplet Id", "1"), ("Asset Id", "101"), ("Asset Type", "SYSTEM"),
          ("status", "Not Started")]] "none").data =
      [[("Triplet Id", "1"), ("Asset Id", "101"), ("Asset Type", "SYSTEM"),
        ("status", "Success")]] ∧
    (handleSendData (fun _ => true)
        [[("Triplet Id", "1"), ("Asset Id", "101"), ("Asset Type", "SYSTEM"),
          ("status", "Success")]] "inline").updates =
      [(0, "In Progress"), (0, "Success")] ∧
    forwardStep "Success" "In Progress" = false := by
  decide

/-- C5 (amended): within a single submission run over a row that starts in
`Not Started`, the sequence of statuses written to that row is a forward
chain of the pipeline `Not Started → In Progress → Success / Failed`,
`Not Started → Data Incorrect`; a later run applied to the resulting
Dataset can, however, move a `Success` or `Failed` row back to
`In Progress`. -/
theorem claim5_amended_forward_within_run (data : List Record)
    (resp : Nat → Bool) (show0 : String) (i : Nat) (h : i < data.length)
    (_h0 : statusAt data i = some "Not Started") :
    forwardChain "Not Started"
      (updatesFor (handleSendData resp data show0) i) = true := by
  have hupd : updatesFor (handleSendData resp data show0) i =
      (updBlockOf data resp i).map (fun p => p.2) := by
    rw [updatesFor, handleSendData_updates,
      filter_updBlock_flatMap data resp i (List.range data.length)
        (List.nodup_range _) (List.mem_range.2 h)]
  rw [hupd]
  have hr : data[i]? = some data[i] := List.getElem?_eq_getElem h
  have hchar : updBlockOf data resp i =
      if isValidRecord data[i] then
        [(i, "In Progress"), (i, if resp i then "Success" else "Failed")]
      else [(i, "Data Incorrect")] := by
    by_cases hv : isValidRecord data[i]
    · simp [updBlockOf, hr, hv]
    · simp [updBlockOf, hr, hv]
  rw [hchar]
  by_cases hv : isValidRecord data[i]
  · rw [if_pos hv]
    cases hresp : resp i
    · rfl
    · rfl
  · rw [if_neg hv]
    rfl

/-- C5 witness: the amended statement at a concrete fresh row. -/
theorem claim5_witness :
    forwardChain "Not Started"
      (updatesFor
        (handleSendData (fun _ => false)
          [[("Triplet Id", "2"), ("Asset Id", "102"), ("Asset Type", "INDUSTRY_UTILITY"),
            ("status", "Not Started")]] "none") 0) = true :=
  claim5_amended_forward_within_run
    [[("Triplet Id", "2"), ("Asset Id", "102"), ("Asset Type", "INDUSTRY_UTILITY"),
      ("status", "Not Started")]]
    (fun _ => false) "none" 0 (by decide) (by decide)

/-- C8: `handleDownloadCSV` downloads under the fixed name
`result_data.csv`, and its payload is exactly the data-URI prefix followed
by the spec's serialization — the first record's keys as the header row,
then each record's values, comma-joined with no escaping (third conjunct:
a cell containing a comma and a quote is emitted verbatim). -/
theorem claim8_download_serialization (first : Record) (rest : List Record) :
    (handleDownloadCSV (first :: rest)).2 = "result_data.csv" ∧
      (handleDownloadCSV (first :: rest)).1 =
        "data:text/csv;charset=utf-8," ++ spec_serializeCSV first rest ∧
      spec_serializeCSV [("A", "x,\"y")] [] = "A" ++ "\n" ++ "x,\"y" := by
  refine ⟨rfl, ?_, by decide⟩
  unfold handleDownloadCSV spec_serializeCSV
  simp [List.map_map]
  rfl

/-- C9: the Dataset-status invariant is preserved by every operation:
`handleParse` only produces records carrying a `status` field (given the
prior Dataset satisfied the invariant, needed for the untouched empty-parse
case), and `updateStatus` and `handleInputChange` keep the field present
in every row. -/
theorem claim9_status_field_invariant :
    (∀ (parsedData : List Record) (st : ParseState),
        (∀ r ∈ st.data, hasStatus r = true) →
        ∀ r ∈ (handleParse parsedData st).data, hasStatus r = true) ∧
      (∀ (d : List Record) (j : Nat) (s : String),
        (∀ r ∈ d, hasStatus r = true) →
        ∀ r ∈ updateStatus d j s, hasStatus r = true) ∧
      (∀ (d : List Record) (j : Nat) (k v : String),
        (∀ r ∈ d, hasStatus r = true) →
        ∀ r ∈ handleInputChange d j k v, hasStatus r = true) := by
  refine ⟨?_, ?_, ?_⟩
  · intro parsedData st hst r hr
    cases parsedData with
    | nil => exact hst r hr
    | cons first rest =>
        rw [handleParse_cons] at hr
        by_cases hh : headersOK first = true
        · rw [hh] at hr
          simp only [if_true, List.mem_map] at hr
          obtain ⟨x, _, hx⟩ := hr
          rw [← hx]
          unfold hasStatus
          rw [statusOf_setKey_status]
          rfl
        · have hh' : headersOK first = false := by
            cases hq : headersOK first with
            | true => exact absurd hq hh
            | false => rfl
          rw [hh'] at hr
          simp at hr
  · intro d j s hd r hr
    obtain ⟨n, hn⟩ := List.mem_iff_getElem?.1 hr
    by_cases hnj : n = j
    · subst hnj
      rw [getElem?_updateStatus_self] at hn
      cases hm : d[n]? with
      | none => rw [hm] at hn; cases hn
      | some x =>
          rw [hm] at hn
          have hx : r = setKey x "status" s := by
            simpa using hn.symm
          rw [hx]
          unfold hasStatus
          rw [statusOf_setKey_status]
          rfl
    · rw [getElem?_updateStatus_ne d n j s hnj] at hn
      exact hd r (List.getElem?_mem hn)
  · intro d j k v hd r hr
    obtain ⟨n, hn⟩ := List.mem_iff_getElem?.1 hr
    have hmap : (handleInputChange d j k v)[n]? =
        (d[n]?).map (fun item => if (n == j) = true then setKey item k v else item) := by
      have hq := get?_mapIdx d (fun i item => if i == j then setKey item k v else item) n
      rw [List.get?_eq_getElem?, List.get?_eq_getElem?] at hq
      rw [handleInputChange]
      exact hq
    rw [hmap] at hn
    cases hm : d[n]? with
    | none => rw [hm] at hn; cases hn
    | some x =>
        rw [hm] at hn
        have hx : r = if (n == j) = true then setKey x k v else x := by
          simpa using hn.symm
        have hxs : hasStatus x = true := hd x (List.getElem?_mem hm)
        rw [hx]
        by_cases hb : (n == j) = true
        · rw [hb]
          simp only [if_true]
          exact hasStatus_setKey x k v hxs
        · have hb' : (n == j) = false := by
            cases hq : (n == j) with
            | true => exact absurd hq hb
            | false => rfl
          rw [hb']
          simpa using hxs

/-- C9 witness: the invariant-preservation facts applied to concrete
inputs. -/
theorem claim9_witness :
    (∀ r ∈ (handleParse [[("Triplet Id", "1"), ("Asset Id", "101"),
        ("Asset Type", "SYSTEM")]] { error := "", data := [] }).data,
      hasStatus r = true) ∧
      (∀ r ∈ updateStatus [[("status", "Not Started")]] 0 "Success",
        hasStatus r = true) ∧
      (∀ r ∈ handleInputChange [[("Triplet Id", "1"), ("status", "Not Started")]]
          0 "Triplet Id" "2",
        hasStatus r = true) := by
  refine ⟨?_, ?_, ?_⟩
  · exact claim9_status_field_invariant.1
      [[("Triplet Id", "1"), ("Asset Id", "101"), ("Asset Type", "SYSTEM")]]
      { error := "", data := [] } (by intro r hr; cases hr)
  · exact claim9_status_field_invariant.2.1 [[("status", "Not Started")]] 0 "Success"
      (by decide)
  · exact claim9_status_field_invariant.2.2
      [[("Triplet Id", "1"), ("status", "Not Started")]] 0 "Triplet Id" "2"
      (by decide)

/-- C10: the validation compares trimmed cell values: a row whose Asset
Type cell is " SYSTEM " (allowed value surrounded by whitespace) passes
validation and is submitted, with the untrimmed values in the POST body
(the `start` event carries the original record); a row whose Triplet Id
holds only whitespace is treated as empty: marked `Data Incorrect`, no
request. -/
theorem claim10_trimmed_comparison :
    isValidRecord
        [("Triplet Id", "1"), ("Asset Id", "101"), ("Asset Type", " SYSTEM "),
          ("status", "Not Started")] = true ∧
      (handleSendData (fun _ => true)
          [[("Triplet Id", "1"), ("Asset Id", "101"), ("Asset Type", " SYSTEM "),
            ("status", "Not Started")]] "none").events =
        [Event.start 0
            [("Triplet Id", "1"), ("Asset Id", "101"), ("Asset Type", " SYSTEM "),
              ("status", "Not Started")],
          Event.settle 0 true] ∧
      statusAt
          (handleSendData (fun _ => true)
            [[("Triplet Id", "1"), ("Asset Id", "101"), ("Asset Type", " SYSTEM "),
              ("status", "Not Started")]] "none").data 0 = some "Success" ∧
      isValidRecord
          [("Triplet Id", "   "), ("Asset Id", "101"), ("Asset Type", "SYSTEM"),
            ("status", "Not Started")] = false ∧
      (handleSendData (fun _ => true)
          [[("Triplet Id", "   "), ("Asset Id", "101"), ("Asset Type", "SYSTEM"),
            ("status", "Not Started")]] "none").events = [] ∧
      statusAt
          (handleSendData (fun _ => true)
            [[("Triplet Id", "   "), ("Asset Id", "101"), ("Asset Type", "SYSTEM"),
              ("status", "Not Started")]] "none").data 0 = some "Data Incorrect" := by
  decide

end CsvApp
